import Mathlib

/-!
Verification of the event CRUD module of the calendar web backend
(`app/routers/event.py`), against its natural-language specification.

The module is shallowly embedded: the database session becomes an explicit
`DB` value threaded through the operations; timestamps (`datetime`) become
`Int`; dynamically typed dictionary values (`Dict[str, Any]`) become the
`PyVal` sum; raised exceptions become explicit outcome constructors; a
commit that may fail at the store level is modelled by a boolean oracle
`commitFails` passed to the operation.
-/

set_option autoImplicit false

namespace Calendar

/-- A dynamically typed Python value, as far as the module inspects them:
a `datetime` (modelled as an integer timeline point), a string, or `None`.
Used for the values of the sparse update mapping and for the inputs of the
date-validation helpers, whose arguments are not type-checked in Python. -/
inductive PyVal where
  | vDT (t : Int)
  | vStr (s : String)
  | vNone
  deriving DecidableEq, Repr

/-- Python exceptions the date comparisons can raise. -/
inductive PyExc where
  | typeError
  deriving DecidableEq, Repr

/-- Python's `<` on two dynamically typed values: defined within one
comparable type (datetimes, strings), a `TypeError` across types or on
`None`. -/
def pyLt : PyVal → PyVal → Except PyExc Bool
  | PyVal.vDT a, PyVal.vDT b => Except.ok (decide (a < b))
  | PyVal.vStr a, PyVal.vStr b => Except.ok (decide (a < b))
  | _, _ => Except.error PyExc.typeError

/-- `app.database.models.Event` (column types per the spec's data model:
id generated, title text, start/end timestamps, content and location
optional text, owner_id a User reference). `end` is a Lean keyword, so the
column is named `end_`. -/
structure Event where
  id : Nat
  title : String
  start : Int
  end_ : Int
  content : Option String
  location : Option String
  owner_id : Nat
  deriving DecidableEq, Repr

/-- `app.database.models.User` (only id and email are read here). -/
structure User where
  id : Nat
  username : String
  password : String
  email : String
  deriving DecidableEq, Repr

/-- `app.database.models.UserEvent`: the event-to-participant association
row. -/
structure UserEvent where
  user_id : Nat
  event_id : Nat
  deriving DecidableEq, Repr

/-- The persistent state behind the SQLAlchemy session: the three tables
and the id generator for new Event rows. -/
structure DB where
  users : List User
  events : List Event
  userEvents : List UserEvent
  nextId : Nat
  deriving DecidableEq, Repr

/-- Severity of a log record (`logger.critical` vs `logger.exception`). -/
inductive LogLevel where
  | critical
  | exceptionLog
  deriving DecidableEq, Repr

/-- The sparse update mapping `Dict[str, Any]`, embedded as an association
list; Python dict keys are unique, which first-match lookup reproduces. -/
def Dict := List (String × PyVal)

instance : DecidableEq Dict := by
  unfold Dict
  infer_instance

/-- First-match lookup, `d[k]` / `k in d`. -/
def dictLookup : Dict → String → Option PyVal
  | [], _ => none
  | (k, v) :: rest, key => if k = key then some v else dictLookup rest key

/-- Python's `d.get(k, default)`. -/
def dictGetD (d : Dict) (k : String) (dflt : PyVal) : PyVal :=
  (dictLookup d k).getD dflt

/-- Outcome of `get_event_by_id`: the unique row, or one of the two
exceptions `NoResultFound` / `MultipleResultsFound` raised by `.one()`. -/
inductive FetchOutcome where
  | found (e : Event)
  | notFoundErr
  | multipleErr
  deriving DecidableEq, Repr

/-- `get_event_by_id(db, event_id)` (event.py:110-126): `.one()` on the
rows with the given id, also returning the log records it emits (the
ambiguous case is logged at critical severity before the raise). -/
def get_event_by_id (db : DB) (event_id : Nat) :
    FetchOutcome × List (LogLevel × String) :=
  match db.events.filter (fun e => e.id == event_id) with
  | [] => (FetchOutcome.notFoundErr, [])
  | [e] => (FetchOutcome.found e, [])
  | _ :: _ :: _ =>
    (FetchOutcome.multipleErr,
     [(LogLevel.critical,
       "Multiple results found when getting event. Expected only one.")])

/-- `is_date_before(start_date, end_date)` (event.py:129-132): a bare
`start_date < end_date`, so an incomparable pair propagates `TypeError`. -/
def is_date_before (start_date end_date : PyVal) : Except PyExc Bool :=
  pyLt start_date end_date

/-- `is_it_possible_to_change_dates(old_event, event)` (event.py:135-139):
compares the start taken from the mapping (falling back to the stored
start) with the end taken from the mapping (falling back to the stored
end). -/
def is_it_possible_to_change_dates (old_event : Event) (event : Dict) :
    Except PyExc Bool :=
  is_date_before
    (dictGetD event "start" (PyVal.vDT old_event.start))
    (dictGetD event "end" (PyVal.vDT old_event.end_))

/-- The allowlist tuple of `get_items_that_can_be_updated`. -/
def updatableKeys : List String :=
  ["title", "start", "end", "content", "location"]

/-- `get_items_that_can_be_updated(event)` (event.py:142-146): the dict
comprehension keeping exactly the allowlisted keys, in allowlist order. -/
def get_items_that_can_be_updated (event : Dict) : Dict :=
  updatableKeys.filterMap (fun k => (dictLookup event k).map (fun v => (k, v)))

/-- `check_date_validation(start_time, end_time)` (event.py:247-253):
`start_time < end_time` with `TypeError` caught and turned into `False`. -/
def check_date_validation (start_time end_time : PyVal) : Bool :=
  match pyLt start_time end_time with
  | Except.ok r => r
  | Except.error _ => false

/-- Outcome of `update_event`: a raised `HTTPException` with its status
code, a raised store exception from the final re-read (outside the
handler's `try`), or the returned value (`None` or the refreshed Event). -/
inductive UpdateOutcome where
  | httpError (code : Nat)
  | raisedDB
  | returned (e : Option Event)
  deriving DecidableEq, Repr

/-- The effect of the SQL `UPDATE ... SET column = value` for a single
allowlisted pair on one row. A value whose type does not fit the column
(per the spec's data model: title text and non-optional, start/end
timestamps, content/location optional text; `app/database/models.py` is
not part of the excerpt) makes the store raise, which `update_event`
catches: that case is `none`. -/
def setField (e : Event) (kv : String × PyVal) : Option Event :=
  if kv.1 = "title" then
    match kv.2 with
    | PyVal.vStr s => some { e with title := s }
    | _ => none
  else if kv.1 = "start" then
    match kv.2 with
    | PyVal.vDT t => some { e with start := t }
    | _ => none
  else if kv.1 = "end" then
    match kv.2 with
    | PyVal.vDT t => some { e with end_ := t }
    | _ => none
  else if kv.1 = "content" then
    match kv.2 with
    | PyVal.vStr s => some { e with content := some s }
    | PyVal.vNone => some { e with content := none }
    | _ => none
  else if kv.1 = "location" then
    match kv.2 with
    | PyVal.vStr s => some { e with location := some s }
    | PyVal.vNone => some { e with location := none }
    | _ => none
  else none

/-- The whole `UPDATE` statement applied to one row: all pairs applied, or
the store's error if any value does not fit its column. -/
def applyUpdate (e : Event) (u : Dict) : Option Event :=
  u.foldlM setField e

/-- `update_event(event_id, event, db)` (event.py:149-175). The fetch
exceptions are re-raised as `HTTPException` 404/500; the date check, the
`UPDATE` and the commit sit in a `try` whose
`except (AttributeError, SQLAlchemyError, TypeError)` returns `None`; a
commit that fails at the store level is the `commitFails` oracle; on
success the function returns `get_event_by_id` re-read from the updated
state (that call is outside the `try`). -/
def update_event (event_id : Nat) (event : Dict) (db : DB)
    (commitFails : Bool) : UpdateOutcome × DB :=
  let event_to_update := get_items_that_can_be_updated event
  if event_to_update.isEmpty then (UpdateOutcome.returned none, db)
  else
    match (get_event_by_id db event_id).1 with
    | FetchOutcome.notFoundErr => (UpdateOutcome.httpError 404, db)
    | FetchOutcome.multipleErr => (UpdateOutcome.httpError 500, db)
    | FetchOutcome.found old_event =>
      match is_it_possible_to_change_dates old_event event_to_update with
      | Except.error _ => (UpdateOutcome.returned none, db)
      | Except.ok false => (UpdateOutcome.returned none, db)
      | Except.ok true =>
        match applyUpdate old_event event_to_update with
        | none => (UpdateOutcome.returned none, db)
        | some newEvent =>
          if commitFails then (UpdateOutcome.returned none, db)
          else
            let db2 : DB :=
              { db with
                events := db.events.map
                  (fun e => if e.id == event_id then newEvent else e) }
            match (get_event_by_id db2 event_id).1 with
            | FetchOutcome.found e2 => (UpdateOutcome.returned (some e2), db2)
            | _ => (UpdateOutcome.raisedDB, db2)

/-- `get_participants_emails_by_event(db, event_id)` (event.py:205-215):
the three-way join Event ⋈ UserEvent ⋈ User filtered on the event id,
projected to the email column. (In the file the `return (` of this
function is missing its closing parenthesis — a syntax slip; the join is
embedded as written.) -/
def get_participants_emails_by_event (db : DB) (event_id : Nat) :
    List String :=
  (db.events.filter (fun e => e.id == event_id)).flatMap (fun e =>
    (db.userEvents.filter (fun ue => ue.event_id == e.id)).flatMap (fun ue =>
      (db.users.filter (fun u => u.id == ue.user_id)).map (fun u => u.email)))

/-- Outcome of the delete handler: a raised `HTTPException` (404 when the
event is missing, 500 when the id is ambiguous), the rendered 500 error
template on a failed commit, or the 200 redirect to `/calendar`. -/
inductive DeleteOutcome where
  | httpError (code : Nat)
  | template500
  | redirect200
  deriving DecidableEq, Repr

/-- `delete_event(request, event_id, db)` (event.py:80-107; the file's
second, shadowing definition at 218-244 calls the undefined name `by_id`,
and the spec directs treating the first as the single canonical delete).
Fetch, collect participant emails, then `db.delete(event)` plus the bulk
delete of its UserEvent rows under one commit; on
`(SQLAlchemyError, TypeError)` the 500 template is returned and the
uncommitted transaction leaves the state as it was. -/
def delete_event (db : DB) (event_id : Nat) (commitFails : Bool) :
    DeleteOutcome × DB :=
  match (get_event_by_id db event_id).1 with
  | FetchOutcome.notFoundErr => (DeleteOutcome.httpError 404, db)
  | FetchOutcome.multipleErr => (DeleteOutcome.httpError 500, db)
  | FetchOutcome.found _event =>
    let _participants := get_participants_emails_by_event db event_id
    if commitFails then (DeleteOutcome.template500, db)
    else
      (DeleteOutcome.redirect200,
       { db with
         events := db.events.filter (fun e => e.id != event_id),
         userEvents :=
           db.userEvents.filter (fun ue => ue.event_id != event_id) })

/-- Modelled from the spec: `create_model(db, Event, ...)` lives in
`app/internal/utils.py`, which is not part of the excerpt; per the spec's
creation path it inserts exactly one Event row, with a generated unique
id, and returns it. -/
def create_model_event (db : DB) (title : String) (start end_ : Int)
    (content : Option String) (owner_id : Nat) (location : Option String) :
    Event × DB :=
  let e : Event :=
    { id := db.nextId, title := title, start := start, end_ := end_,
      content := content, location := location, owner_id := owner_id }
  (e, { db with events := db.events ++ [e], nextId := db.nextId + 1 })

/-- Modelled from the spec: `create_model(db, UserEvent, ...)`
(`app/internal/utils.py`, not part of the excerpt) inserts exactly one
UserEvent row. -/
def create_model_user_event (db : DB) (user_id event_id : Nat) :
    UserEvent × DB :=
  let ue : UserEvent := { user_id := user_id, event_id := event_id }
  (ue, { db with userEvents := db.userEvents ++ [ue] })

/-- `create_event(db, title, start, end, owner_id, content, location)`
(event.py:178-195): one Event row, then one UserEvent row associating the
owner with the new event's id; no date validation on this path. -/
def create_event (db : DB) (title : String) (start end_ : Int)
    (owner_id : Nat) (content : Option String) (location : Option String) :
    Event × DB :=
  let created := create_model_event db title start end_ content owner_id
    location
  let db2 := (create_model_user_event created.2 owner_id created.1.id).2
  (created.1, db2)

/-- The `values` dict passed to `add_new_event`: the keys the function
reads (`start`, `end`, `owner_id`) together with the remaining Event
columns forwarded to `create_model(db, Event, **values)`. -/
structure EventValues where
  title : String
  start : Int
  end_ : Int
  content : Option String
  location : Option String
  owner_id : Nat
  deriving DecidableEq, Repr

/-- `add_new_event(values, db)` (event.py:256-276): the validated creation
path. `check_date_validation` on the start/end values gates the two
inserts; on failure it returns `None` with nothing inserted. -/
def add_new_event (values : EventValues) (db : DB) : Option Event × DB :=
  if !check_date_validation (PyVal.vDT values.start)
      (PyVal.vDT values.end_) then
    (none, db)
  else
    let created := create_model_event db values.title values.start
      values.end_ values.content values.owner_id values.location
    let db2 :=
      (create_model_user_event created.2 values.owner_id created.1.id).2
    (some created.1, db2)

/-- `sort_by_date(events)` (event.py:198-202): `sorted(events.copy(),
key=attrgetter('start'))` — a stable sort on the start column, embedded
as insertion sort (stable) under the start-ordering relation. -/
def sort_by_date (events : List Event) : List Event :=
  events.insertionSort (fun a b => a.start ≤ b.start)

/-- The relational integrity invariant of the spec: every Event row has at
least one UserEvent row referencing it. -/
def Inv (db : DB) : Prop :=
  ∀ e ∈ db.events, ∃ ue ∈ db.userEvents, ue.event_id = e.id

instance (db : DB) : Decidable (Inv db) := by
  unfold Inv
  infer_instance

/-- A sample stored event (id 1, 0 ≤ start < end ≤ 10 on the timeline). -/
def evA : Event :=
  { id := 1, title := "standup", start := 0, end_ := 10, content := none,
    location := none, owner_id := 5 }

/-- `evA` with its title updated. -/
def evARetro : Event :=
  { id := 1, title := "retro", start := 0, end_ := 10, content := none,
    location := none, owner_id := 5 }

/-- A sample state holding `evA` and its owner association. -/
def dbA : DB :=
  { users := [], events := [evA], userEvents := [⟨5, 1⟩], nextId := 2 }

/-- A corrupted state with two Event rows sharing id 1. -/
def dbDup : DB :=
  { users := [], events := [evA, evA], userEvents := [⟨5, 1⟩], nextId := 2 }

/-- The empty initial state. -/
def dbEmpty : DB :=
  { users := [], events := [], userEvents := [], nextId := 1 }

/-! ### Helper lemmas -/

theorem dictLookup_keysFilter_of_not_mem (ks : List String) (d : Dict)
    (k : String) (hk : k ∉ ks) :
    dictLookup (ks.filterMap fun q => (dictLookup d q).map fun v => (q, v)) k
      = none := by
  induction ks with
  | nil => rfl
  | cons a t ih =>
    rw [List.mem_cons, not_or] at hk
    cases hda : dictLookup d a with
    | none =>
      rw [List.filterMap_cons_none (by rw [hda]; rfl)]
      exact ih hk.2
    | some v =>
      rw [List.filterMap_cons_some (by rw [hda]; rfl)]
      show (if a = k then some v else _) = none
      rw [if_neg (fun h => hk.1 h.symm)]
      exact ih hk.2

theorem dictLookup_keysFilter_of_mem (ks : List String) (d : Dict)
    (k : String) (hnd : ks.Nodup) (hk : k ∈ ks) :
    dictLookup (ks.filterMap fun q => (dictLookup d q).map fun v => (q, v)) k
      = dictLookup d k := by
  induction ks with
  | nil => cases hk
  | cons a t ih =>
    have hnd' := List.nodup_cons.mp hnd
    rcases List.mem_cons.mp hk with rfl | hkt
    · cases hda : dictLookup d k with
      | none =>
        rw [List.filterMap_cons_none (by rw [hda]; rfl)]
        exact dictLookup_keysFilter_of_not_mem t d k hnd'.1
      | some v =>
        rw [List.filterMap_cons_some (by rw [hda]; rfl)]
        show (if k = k then some v else _) = _
        rw [if_pos rfl]
    · have hka : k ≠ a := fun h => hnd'.1 (h ▸ hkt)
      cases hda : dictLookup d a with
      | none =>
        rw [List.filterMap_cons_none (by rw [hda]; rfl)]
        exact ih hnd'.2 hkt
      | some v =>
        rw [List.filterMap_cons_some (by rw [hda]; rfl)]
        show (if a = k then some v else _) = _
        rw [if_neg (fun h => hka h.symm)]
        exact ih hnd'.2 hkt

theorem lookup_get_items (d : Dict) (k : String) (hk : k ∈ updatableKeys) :
    dictLookup (get_items_that_can_be_updated d) k = dictLookup d k :=
  dictLookup_keysFilter_of_mem updatableKeys d k (by decide) hk

/-- Filtering the mapping to the allowlist does not change the effective
start/end the date check reads. -/
theorem is_it_possible_get_items (old : Event) (d : Dict) :
    is_it_possible_to_change_dates old (get_items_that_can_be_updated d)
      = is_it_possible_to_change_dates old d := by
  unfold is_it_possible_to_change_dates dictGetD
  rw [lookup_get_items d "start" (by simp [updatableKeys]),
    lookup_get_items d "end" (by simp [updatableKeys])]

theorem get_items_ne_nil_of_key (d : Dict)
    (hkey : dictLookup d "start" ≠ none ∨ dictLookup d "end" ≠ none) :
    get_items_that_can_be_updated d ≠ [] := by
  intro hnil
  unfold get_items_that_can_be_updated at hnil
  have hall := List.filterMap_eq_nil_iff.mp hnil
  rcases hkey with h | h
  · exact h (Option.map_eq_none'.mp (hall "start" (by simp [updatableKeys])))
  · exact h (Option.map_eq_none'.mp (hall "end" (by simp [updatableKeys])))

theorem get_event_by_id_of_filter_eq (db : DB) (event_id : Nat) (old : Event)
    (hone : db.events.filter (fun e => e.id == event_id) = [old]) :
    get_event_by_id db event_id = (FetchOutcome.found old, []) := by
  unfold get_event_by_id
  rw [hone]

theorem get_event_by_id_found (db : DB) (event_id : Nat) (e : Event)
    (h : (get_event_by_id db event_id).1 = FetchOutcome.found e) :
    e ∈ db.events ∧ e.id = event_id := by
  have hmain : db.events.filter (fun x => x.id == event_id) = [e] := by
    unfold get_event_by_id at h
    cases hfil : db.events.filter (fun x => x.id == event_id) with
    | nil => rw [hfil] at h; simp at h
    | cons x t =>
      cases t with
      | nil =>
        rw [hfil] at h
        simp at h
        rw [h]
      | cons y t2 => rw [hfil] at h; simp at h
  have hx := List.mem_filter.mp (hmain ▸ List.mem_singleton_self e)
  exact ⟨hx.1, by simpa using hx.2⟩

theorem setField_id {e e' : Event} {kv : String × PyVal}
    (h : setField e kv = some e') : e'.id = e.id := by
  unfold setField at h
  repeat' split at h
  all_goals first
    | exact Option.noConfusion h
    | rw [← Option.some.inj h]

theorem applyUpdate_id {u : Dict} :
    ∀ {e e' : Event}, applyUpdate e u = some e' → e'.id = e.id := by
  unfold applyUpdate
  induction u with
  | nil =>
    intro e e' h
    cases h
    rfl
  | cons kv t ih =>
    intro e e' h
    rw [List.foldlM_cons] at h
    rcases Option.bind_eq_some.mp h with ⟨e1, hsf, hrest⟩
    rw [ih hrest, setField_id hsf]

theorem filter_map_ite_nil {α : Type} (p : α → Bool) (b : α) :
    ∀ {l : List α}, l.filter p = [] →
      (l.map fun x => if p x then b else x).filter p = [] := by
  intro l
  induction l with
  | nil => intro _; rfl
  | cons x t ih =>
    intro h
    rw [List.filter_cons] at h
    by_cases hp : p x = true
    · rw [if_pos hp] at h
      cases h
    · rw [if_neg hp] at h
      rw [List.map_cons, List.filter_cons, if_neg hp, if_neg hp]
      exact ih h

theorem filter_map_ite_singleton {α : Type} (p : α → Bool) (b : α)
    (hb : p b = true) :
    ∀ {l : List α} {a : α}, l.filter p = [a] →
      (l.map fun x => if p x then b else x).filter p = [b] := by
  intro l
  induction l with
  | nil => intro a h; cases h
  | cons x t ih =>
    intro a h
    rw [List.filter_cons] at h
    by_cases hp : p x = true
    · rw [if_pos hp] at h
      injection h with h1 h2
      rw [List.map_cons, List.filter_cons, if_pos hp, if_pos hb,
        filter_map_ite_nil p b h2]
    · rw [if_neg hp] at h
      rw [List.map_cons, List.filter_cons, if_neg hp, if_neg hp]
      exact ih h

/-- Any date-check result other than a clean `True` makes `update_event`
return the nothing-changed signal with the state untouched. -/
theorem update_event_rejected (db : DB) (event_id : Nat) (event : Dict)
    (old : Event) (cf : Bool) (res : Except PyExc Bool)
    (hone : db.events.filter (fun e => e.id == event_id) = [old])
    (hne : get_items_that_can_be_updated event ≠ [])
    (hposs : is_it_possible_to_change_dates old event = res)
    (hres : res ≠ Except.ok true) :
    update_event event_id event db cf = (UpdateOutcome.returned none, db) := by
  have hfetch := get_event_by_id_of_filter_eq db event_id old hone
  have hposs' := (is_it_possible_get_items old event).trans hposs
  have hempty : (get_items_that_can_be_updated event).isEmpty = false :=
    List.isEmpty_eq_false.mpr hne
  cases res with
  | error ex => simp [update_event, hempty, hfetch, hposs']
  | ok b =>
    cases b with
    | false => simp [update_event, hempty, hfetch, hposs']
    | true => exact absurd rfl hres

/-- A store-level failure while applying the `UPDATE` (a value that does
not fit its column) makes `update_event` return the nothing-changed signal
with the state untouched. -/
theorem update_event_apply_none (db : DB) (event_id : Nat) (event : Dict)
    (old : Event) (cf : Bool)
    (hone : db.events.filter (fun e => e.id == event_id) = [old])
    (hne : get_items_that_can_be_updated event ≠ [])
    (hposs : is_it_possible_to_change_dates old event = Except.ok true)
    (happ : applyUpdate old (get_items_that_can_be_updated event) = none) :
    update_event event_id event db cf = (UpdateOutcome.returned none, db) := by
  have hfetch := get_event_by_id_of_filter_eq db event_id old hone
  have hposs' := (is_it_possible_get_items old event).trans hposs
  have hempty : (get_items_that_can_be_updated event).isEmpty = false :=
    List.isEmpty_eq_false.mpr hne
  simp [update_event, hempty, hfetch, hposs', happ]

/-- A failing commit makes `update_event` return the nothing-changed
signal with the state untouched. -/
theorem update_event_commit_fails (db : DB) (event_id : Nat) (event : Dict)
    (old newE : Event)
    (hone : db.events.filter (fun e => e.id == event_id) = [old])
    (hne : get_items_that_can_be_updated event ≠ [])
    (hposs : is_it_possible_to_change_dates old event = Except.ok true)
    (happ : applyUpdate old (get_items_that_can_be_updated event)
      = some newE) :
    update_event event_id event db true = (UpdateOutcome.returned none, db)
    := by
  have hfetch := get_event_by_id_of_filter_eq db event_id old hone
  have hposs' := (is_it_possible_get_items old event).trans hposs
  have hempty : (get_items_that_can_be_updated event).isEmpty = false :=
    List.isEmpty_eq_false.mpr hne
  simp [update_event, hempty, hfetch, hposs', happ]

/-- The successful update path: the matching row is replaced by the
updated row and the function returns that row as re-read from the updated
state. -/
theorem update_event_success (db : DB) (event_id : Nat) (event : Dict)
    (old newE : Event)
    (hone : db.events.filter (fun e => e.id == event_id) = [old])
    (hne : get_items_that_can_be_updated event ≠ [])
    (hposs : is_it_possible_to_change_dates old event = Except.ok true)
    (happ : applyUpdate old (get_items_that_can_be_updated event)
      = some newE) :
    update_event event_id event db false =
      (UpdateOutcome.returned (some newE),
       { db with events :=
          db.events.map (fun e => if e.id == event_id then newE else e) })
    ∧ ({ db with events :=
          db.events.map (fun e => if e.id == event_id then newE else e) }
            : DB).events.filter
        (fun e => e.id == event_id) = [newE] := by
  have hfetch := get_event_by_id_of_filter_eq db event_id old hone
  have hposs' := (is_it_possible_get_items old event).trans hposs
  have hempty : (get_items_that_can_be_updated event).isEmpty = false :=
    List.isEmpty_eq_false.mpr hne
  have holdid : (old.id == event_id) = true := by
    have := List.mem_filter.mp (hone ▸ List.mem_singleton_self old)
    exact this.2
  have hbid : (newE.id == event_id) = true := by
    rw [applyUpdate_id happ]
    exact holdid
  have hmap : (db.events.map
      (fun e => if e.id == event_id then newE else e)).filter
        (fun e => e.id == event_id) = [newE] :=
    filter_map_ite_singleton (fun e => e.id == event_id) newE hbid hone
  have hfetch2 : get_event_by_id
      { db with events :=
        db.events.map (fun e => if e.id == event_id then newE else e) }
      event_id = (FetchOutcome.found newE, []) :=
    get_event_by_id_of_filter_eq _ event_id newE hmap
  refine ⟨?_, hmap⟩
  simp at hfetch2
  simp [update_event, hempty, hfetch, hposs', happ]
  rw [hfetch2]

/-- The state after `update_event` is either untouched or the matching row
replaced by a row with the same id as an existing row. -/
theorem update_event_snd (event_id : Nat) (event : Dict) (db : DB)
    (cf : Bool) :
    (update_event event_id event db cf).2 = db ∨
    ∃ newE : Event, (∃ old ∈ db.events, newE.id = old.id) ∧
      (update_event event_id event db cf).2 =
        { db with events :=
          db.events.map (fun e => if e.id == event_id then newE else e) }
      := by
  by_cases hemp : (get_items_that_can_be_updated event).isEmpty = true
  · left
    simp [update_event, hemp]
  · cases hfo : (get_event_by_id db event_id).1 with
    | notFoundErr => left; simp [update_event, hemp, hfo]
    | multipleErr => left; simp [update_event, hemp, hfo]
    | found old_event =>
      cases hposs : is_it_possible_to_change_dates old_event
          (get_items_that_can_be_updated event) with
      | error ex => left; simp [update_event, hemp, hfo, hposs]
      | ok b =>
        cases b with
        | false => left; simp [update_event, hemp, hfo, hposs]
        | true =>
          cases happ : applyUpdate old_event
              (get_items_that_can_be_updated event) with
          | none => left; simp [update_event, hemp, hfo, hposs, happ]
          | some newE =>
            cases cf with
            | true => left; simp [update_event, hemp, hfo, hposs, happ]
            | false =>
              right
              refine ⟨newE, ⟨old_event,
                (get_event_by_id_found db event_id old_event hfo).1,
                applyUpdate_id happ⟩, ?_⟩
              simp [update_event, hemp, hfo, hposs, happ]
              split <;> rfl

/-- The state after `delete_event` is either untouched or has the event
row and its association rows filtered out. -/
theorem delete_event_snd (db : DB) (event_id : Nat) (cf : Bool) :
    (delete_event db event_id cf).2 = db ∨
    (delete_event db event_id cf).2 =
      { db with events := db.events.filter (fun e => e.id != event_id),
                userEvents :=
                  db.userEvents.filter (fun ue => ue.event_id != event_id) }
    := by
  cases hfo : (get_event_by_id db event_id).1 with
  | notFoundErr => left; simp [delete_event, hfo]
  | multipleErr => left; simp [delete_event, hfo]
  | found e =>
    cases cf with
    | true => left; simp [delete_event, hfo]
    | false => right; simp [delete_event, hfo]

theorem Inv_create (db : DB) (hInv : Inv db) (newE : Event) (u n : Nat) :
    Inv { db with events := db.events ++ [newE],
                  userEvents := db.userEvents ++ [⟨u, newE.id⟩],
                  nextId := n } := by
  intro e he
  rcases List.mem_append.mp he with h | h
  · obtain ⟨ue, hue, heq⟩ := hInv e h
    exact ⟨ue, List.mem_append_left _ hue, heq⟩
  · have heq := List.mem_singleton.mp h
    subst heq
    exact ⟨⟨u, e.id⟩, List.mem_append_right _ (List.mem_singleton_self _),
      rfl⟩

theorem Inv_map_replace (db : DB) (hInv : Inv db) (event_id : Nat)
    (newE : Event) (hid : ∃ old ∈ db.events, newE.id = old.id) :
    Inv { db with events :=
      db.events.map (fun e => if e.id == event_id then newE else e) } := by
  intro e' he'
  obtain ⟨e, heMem, heq⟩ := List.mem_map.mp he'
  by_cases hc : (e.id == event_id) = true
  · rw [if_pos hc] at heq
    subst heq
    obtain ⟨old, holdMem, hidEq⟩ := hid
    obtain ⟨ue, hue, hueEq⟩ := hInv old holdMem
    exact ⟨ue, hue, by rw [hueEq, ← hidEq]⟩
  · rw [if_neg hc] at heq
    subst heq
    exact hInv e heMem

theorem Inv_delete_state (db : DB) (hInv : Inv db) (event_id : Nat) :
    Inv { db with events := db.events.filter (fun e => e.id != event_id),
                  userEvents :=
                    db.userEvents.filter
                      (fun ue => ue.event_id != event_id) } := by
  intro e he
  have hm := List.mem_filter.mp he
  obtain ⟨ue, hue, heq⟩ := hInv e hm.1
  refine ⟨ue, List.mem_filter.mpr ⟨hue, ?_⟩, heq⟩
  have hne : e.id ≠ event_id := by simpa using hm.2
  rw [bne_iff_ne, heq]
  exact hne

/-! ### Claims -/

/-- Claim C1: for every existing event and every update mapping holding at
least one of the keys start/end, when the start taken from the mapping (or
retained from the stored event when absent) is not strictly before the end
taken from the mapping (or retained when absent), `update_event` rejects
the update by returning the nothing-changed signal `None`, without raising
and with the state untouched — whichever of the two fields was supplied. -/
theorem c1_update_rejects_invalid_date_range
    (db : DB) (event_id : Nat) (event : Dict) (old : Event) (cf : Bool)
    (hone : db.events.filter (fun e => e.id == event_id) = [old])
    (hkey : dictLookup event "start" ≠ none ∨ dictLookup event "end" ≠ none)
    (hbad : is_it_possible_to_change_dates old event = Except.ok false) :
    update_event event_id event db cf = (UpdateOutcome.returned none, db) :=
  update_event_rejected db event_id event old cf (Except.ok false) hone
    (get_items_ne_nil_of_key event hkey) hbad
    (fun h => by cases h)

/-- Witness for C1: moving the start of `evA` past its retained end is
rejected. -/
theorem c1_witness :
    update_event 1 [("start", PyVal.vDT 20)] dbA false
      = (UpdateOutcome.returned none, dbA) :=
  c1_update_rejects_invalid_date_range dbA 1 [("start", PyVal.vDT 20)] evA
    false (by decide) (Or.inl (by decide)) rfl

/-- Claim C2: for every existing event, deleting it removes the Event row
and all UserEvent rows referencing it as one unit, while a persistence
failure yields the 500 error template and leaves both tables exactly as
they were. -/
theorem c2_delete_atomic (db : DB) (event_id : Nat) (old : Event)
    (hone : db.events.filter (fun e => e.id == event_id) = [old]) :
    delete_event db event_id true = (DeleteOutcome.template500, db)
    ∧ delete_event db event_id false =
      (DeleteOutcome.redirect200,
       { db with
         events := db.events.filter (fun e => e.id != event_id),
         userEvents :=
           db.userEvents.filter (fun ue => ue.event_id != event_id) }) := by
  have hfetch := get_event_by_id_of_filter_eq db event_id old hone
  constructor <;> simp [delete_event, hfetch]

/-- Witness for C2: deleting event 1 of `dbA`, with a failing and a
succeeding commit. -/
theorem c2_witness :
    delete_event dbA 1 true = (DeleteOutcome.template500, dbA)
    ∧ delete_event dbA 1 false =
      (DeleteOutcome.redirect200,
       { dbA with
         events := dbA.events.filter (fun e => e.id != 1),
         userEvents := dbA.userEvents.filter (fun ue => ue.event_id != 1) })
    := c2_delete_atomic dbA 1 evA (by decide)

/-- Claim C3: `create_event` inserts exactly one Event row carrying the
given fields and exactly one UserEvent row associating the owner with the
new event's id, returns the created Event, and adds no other rows. -/
theorem c3_create_inserts_one_event_one_association
    (db : DB) (title : String) (start end_ : Int) (owner_id : Nat)
    (content location : Option String) :
    ∃ e db2,
      create_event db title start end_ owner_id content location = (e, db2)
      ∧ db2.events = db.events ++ [e]
      ∧ db2.userEvents = db.userEvents ++ [⟨owner_id, e.id⟩]
      ∧ db2.users = db.users
      ∧ e.title = title ∧ e.start = start ∧ e.end_ = end_
      ∧ e.content = content ∧ e.location = location
      ∧ e.owner_id = owner_id :=
  ⟨_, _, rfl, rfl, rfl, rfl, rfl, rfl, rfl, rfl, rfl, rfl⟩

/-- Claim C4: `get_event_by_id` returns the unique matching Event when
exactly one exists, the not-found error when none exists, and the distinct
ambiguous-result error — logged at critical severity — when more than one
exists; no other outcome is possible. -/
theorem c4_get_event_by_id_trichotomy (db : DB) (event_id : Nat) :
    (∀ e, db.events.filter (fun x => x.id == event_id) = [e] →
        get_event_by_id db event_id = (FetchOutcome.found e, []))
    ∧ (db.events.filter (fun x => x.id == event_id) = [] →
        get_event_by_id db event_id = (FetchOutcome.notFoundErr, []))
    ∧ (2 ≤ (db.events.filter (fun x => x.id == event_id)).length →
        get_event_by_id db event_id = (FetchOutcome.multipleErr,
          [(LogLevel.critical,
            "Multiple results found when getting event. Expected only one.")]))
    ∧ (∀ fo logs, get_event_by_id db event_id = (fo, logs) →
        (∃ e, fo = FetchOutcome.found e ∧ logs = []
           ∧ db.events.filter (fun x => x.id == event_id) = [e])
        ∨ (fo = FetchOutcome.notFoundErr ∧ logs = []
           ∧ db.events.filter (fun x => x.id == event_id) = [])
        ∨ (fo = FetchOutcome.multipleErr
           ∧ 2 ≤ (db.events.filter (fun x => x.id == event_id)).length
           ∧ logs = [(LogLevel.critical,
              "Multiple results found when getting event. Expected only one.")]))
    := by
  refine ⟨?_, ?_, ?_, ?_⟩
  · intro e he
    exact get_event_by_id_of_filter_eq db event_id e he
  · intro h
    unfold get_event_by_id
    rw [h]
  · intro h
    unfold get_event_by_id
    cases hfil : db.events.filter (fun x => x.id == event_id) with
    | nil => rw [hfil] at h; simp at h
    | cons x t =>
      cases t with
      | nil => rw [hfil] at h; simp at h
      | cons y t2 => rfl
  · intro fo logs h
    cases hfil : db.events.filter (fun x => x.id == event_id) with
    | nil =>
      have hge : get_event_by_id db event_id
          = (FetchOutcome.notFoundErr, []) := by
        unfold get_event_by_id
        rw [hfil]
      rw [hge] at h
      cases h
      exact Or.inr (Or.inl ⟨rfl, rfl, rfl⟩)
    | cons x t =>
      cases t with
      | nil =>
        have hge : get_event_by_id db event_id
            = (FetchOutcome.found x, []) :=
          get_event_by_id_of_filter_eq db event_id x hfil
        rw [hge] at h
        cases h
        exact Or.inl ⟨x, rfl, rfl, rfl⟩
      | cons y t2 =>
        have hge : get_event_by_id db event_id
            = (FetchOutcome.multipleErr,
               [(LogLevel.critical,
                 "Multiple results found when getting event. Expected only one.")])
            := by
          unfold get_event_by_id
          rw [hfil]
        rw [hge] at h
        cases h
        refine Or.inr (Or.inr ⟨rfl, ?_, rfl⟩)
        simp only [List.length_cons]
        omega

/-- Witness for C4: the unique-row case on `dbA` and the ambiguous case on
the corrupted `dbDup`. -/
theorem c4_witness :
    get_event_by_id dbA 1 = (FetchOutcome.found evA, [])
    ∧ get_event_by_id dbDup 1 = (FetchOutcome.multipleErr,
        [(LogLevel.critical,
          "Multiple results found when getting event. Expected only one.")])
    :=
  ⟨(c4_get_event_by_id_trichotomy dbA 1).1 evA (by decide),
   (c4_get_event_by_id_trichotomy dbDup 1).2.2.1 (by decide)⟩

/-- Claim C5: keys outside {title, start, end, content, location} are
dropped before any other processing, and a mapping with no key from that
set makes `update_event` a no-op returning the nothing-changed signal with
the state unchanged. -/
theorem c5_update_irrelevant_keys_noop (db : DB) (event_id : Nat)
    (event : Dict) (cf : Bool) :
    (∀ k, k ∉ updatableKeys →
        dictLookup (get_items_that_can_be_updated event) k = none)
    ∧ ((∀ k ∈ updatableKeys, dictLookup event k = none) →
        update_event event_id event db cf
          = (UpdateOutcome.returned none, db)) := by
  constructor
  · intro k hk
    exact dictLookup_keysFilter_of_not_mem updatableKeys event k hk
  · intro hnone
    have hnil : get_items_that_can_be_updated event = [] := by
      unfold get_items_that_can_be_updated
      refine List.filterMap_eq_nil_iff.mpr ?_
      intro k hk
      rw [hnone k hk]
      rfl
    have hemp : (get_items_that_can_be_updated event).isEmpty = true :=
      List.isEmpty_iff.mpr hnil
    simp [update_event, hemp]

/-- Witness for C5: an owner_id key is dropped and the update is a no-op,
even against a populated state. -/
theorem c5_witness :
    dictLookup (get_items_that_can_be_updated [("owner_id", PyVal.vDT 99)])
      "owner_id" = none
    ∧ update_event 1 [("owner_id", PyVal.vDT 99)] dbA false
      = (UpdateOutcome.returned none, dbA) :=
  ⟨(c5_update_irrelevant_keys_noop dbA 1 [("owner_id", PyVal.vDT 99)]
      false).1 "owner_id" (by decide),
   (c5_update_irrelevant_keys_noop dbA 1 [("owner_id", PyVal.vDT 99)]
      false).2 (by decide)⟩

/-- Claim C6: for a non-empty valid update of an existing event, a
persistence failure (failing commit, or a value that does not fit its
column) makes `update_event` return the nothing-changed signal with no
partial state retained, while a successful persist returns the refreshed
Event exactly as re-read from the updated store. -/
theorem c6_update_persistence (db : DB) (event_id : Nat) (event : Dict)
    (old : Event)
    (hne : get_items_that_can_be_updated event ≠ [])
    (hone : db.events.filter (fun e => e.id == event_id) = [old])
    (hvalid : is_it_possible_to_change_dates old event = Except.ok true) :
    update_event event_id event db true = (UpdateOutcome.returned none, db)
    ∧ (applyUpdate old (get_items_that_can_be_updated event) = none →
        ∀ cf, update_event event_id event db cf
          = (UpdateOutcome.returned none, db))
    ∧ (∀ newE, applyUpdate old (get_items_that_can_be_updated event)
          = some newE →
        update_event event_id event db false =
          (UpdateOutcome.returned (some newE),
           { db with events :=
              db.events.map (fun e => if e.id == event_id then newE else e) })
        ∧ ({ db with events :=
              db.events.map (fun e => if e.id == event_id then newE else e) }
            : DB).events.filter (fun e => e.id == event_id) = [newE]) := by
  refine ⟨?_, ?_, ?_⟩
  · cases happ : applyUpdate old (get_items_that_can_be_updated event) with
    | none =>
      exact update_event_apply_none db event_id event old true hone hne
        hvalid happ
    | some newE =>
      exact update_event_commit_fails db event_id event old newE hone hne
        hvalid happ
  · intro happ cf
    exact update_event_apply_none db event_id event old cf hone hne hvalid
      happ
  · intro newE happ
    exact update_event_success db event_id event old newE hone hne hvalid
      happ

/-- Witness for C6: retitling `evA`; the failing commit is a no-op and the
succeeding one stores and returns the retitled event. -/
theorem c6_witness :
    update_event 1 [("title", PyVal.vStr "retro")] dbA true
      = (UpdateOutcome.returned none, dbA)
    ∧ (update_event 1 [("title", PyVal.vStr "retro")] dbA false =
        (UpdateOutcome.returned (some evARetro),
         { dbA with events :=
            dbA.events.map (fun e => if e.id == 1 then evARetro else e) })
       ∧ ({ dbA with events :=
            dbA.events.map (fun e => if e.id == 1 then evARetro else e) }
          : DB).events.filter (fun e => e.id == 1) = [evARetro]) :=
  ⟨(c6_update_persistence dbA 1 [("title", PyVal.vStr "retro")] evA
      (by decide) (by decide) rfl).1,
   (c6_update_persistence dbA 1 [("title", PyVal.vStr "retro")] evA
      (by decide) (by decide) rfl).2.2 evARetro rfl⟩

/-- Claim C7: in every state satisfying the owner-association invariant,
each core operation — both creation paths, update, delete — yields a state
that satisfies it again: creation establishes the owner association with
the event, update and delete preserve it. -/
theorem c7_event_owner_invariant (db : DB) (hInv : Inv db) :
    (∀ title start end_ owner_id content location,
        Inv (create_event db title start end_ owner_id content location).2)
    ∧ (∀ event_id event cf, Inv (update_event event_id event db cf).2)
    ∧ (∀ event_id cf, Inv (delete_event db event_id cf).2)
    ∧ (∀ values, Inv (add_new_event values db).2) := by
  refine ⟨?_, ?_, ?_, ?_⟩
  · intro title start end_ owner_id content location
    exact Inv_create db hInv
      ⟨db.nextId, title, start, end_, content, location, owner_id⟩
      owner_id (db.nextId + 1)
  · intro event_id event cf
    rcases update_event_snd event_id event db cf with h | ⟨newE, hid, h⟩
    · rw [h]; exact hInv
    · rw [h]; exact Inv_map_replace db hInv event_id newE hid
  · intro event_id cf
    rcases delete_event_snd db event_id cf with h | h
    · rw [h]; exact hInv
    · rw [h]; exact Inv_delete_state db hInv event_id
  · intro values
    cases hv : check_date_validation (PyVal.vDT values.start)
        (PyVal.vDT values.end_) with
    | false =>
      have h : (add_new_event values db).2 = db := by
        simp [add_new_event, hv]
      rw [h]
      exact hInv
    | true =>
      have h : (add_new_event values db).2 =
          { db with
            events := db.events ++
              [⟨db.nextId, values.title, values.start, values.end_,
                values.content, values.location, values.owner_id⟩],
            userEvents := db.userEvents ++ [⟨values.owner_id, db.nextId⟩],
            nextId := db.nextId + 1 } := by
        simp [add_new_event, hv, create_model_event, create_model_user_event]
      rw [h]
      exact Inv_create db hInv
        ⟨db.nextId, values.title, values.start, values.end_, values.content,
          values.location, values.owner_id⟩
        values.owner_id (db.nextId + 1)

/-- Witness for C7: the empty state satisfies the invariant and creation
from it does too. -/
theorem c7_witness :
    Inv (create_event dbEmpty "standup" 0 10 5 none none).2 :=
  (c7_event_owner_invariant dbEmpty (by decide)).1 "standup" 0 10 5 none
    none

/-- Counterexample to C8 as stated: `is_date_before` — the validation used
by the update path — propagates the comparison failure on incomparable
inputs as a `TypeError` instead of yielding the result false. -/
theorem c8_counterexample :
    is_date_before PyVal.vNone (PyVal.vDT 0) = Except.error PyExc.typeError
    ∧ is_date_before PyVal.vNone (PyVal.vDT 0) ≠ Except.ok false :=
  ⟨rfl, fun h => Except.noConfusion h⟩

/-- Claim C8 (amended): `check_date_validation` is total, returning the
strict comparison on comparable timestamps and false on any comparison
failure; `is_date_before` returns the strict comparison on comparable
timestamps but propagates the comparison failure as a `TypeError`, which
its only validating caller, `update_event`, catches and converts to the
nothing-changed signal instead of propagating. -/
theorem c8_amended_validation :
    (∀ a b : Int,
        check_date_validation (PyVal.vDT a) (PyVal.vDT b) = decide (a < b))
    ∧ (∀ v w : PyVal, pyLt v w = Except.error PyExc.typeError →
        check_date_validation v w = false)
    ∧ (∀ a b : Int,
        is_date_before (PyVal.vDT a) (PyVal.vDT b)
          = Except.ok (decide (a < b)))
    ∧ (∀ (v w : PyVal) (ex : PyExc), pyLt v w = Except.error ex →
        is_date_before v w = Except.error ex)
    ∧ (∀ (db : DB) (event_id : Nat) (event : Dict) (old : Event) (cf : Bool),
        db.events.filter (fun e => e.id == event_id) = [old] →
        (dictLookup event "start" ≠ none ∨ dictLookup event "end" ≠ none) →
        is_it_possible_to_change_dates old event
          = Except.error PyExc.typeError →
        update_event event_id event db cf
          = (UpdateOutcome.returned none, db)) := by
  refine ⟨fun a b => rfl, ?_, fun a b => rfl, fun v w ex h => h, ?_⟩
  · intro v w h
    unfold check_date_validation
    rw [h]
  · intro db event_id event old cf hone hkey hposs
    exact update_event_rejected db event_id event old cf
      (Except.error PyExc.typeError) hone
      (get_items_ne_nil_of_key event hkey) hposs
      (fun h => Except.noConfusion h)

/-- Witness for C8 (amended): the caught comparison failure in
`check_date_validation` and in the update path. -/
theorem c8_witness :
    check_date_validation PyVal.vNone (PyVal.vDT 0) = false
    ∧ update_event 1 [("start", PyVal.vStr "tomorrow")] dbA false
      = (UpdateOutcome.returned none, dbA) :=
  ⟨c8_amended_validation.2.1 PyVal.vNone (PyVal.vDT 0) rfl,
   c8_amended_validation.2.2.2.2 dbA 1 [("start", PyVal.vStr "tomorrow")]
     evA false (by decide) (Or.inl (by decide)) rfl⟩

/-- Claim C9: for every input whose start is not strictly before its end
(for example 2024-01-01T10:00 versus 2024-01-01T09:00) and every prior
state, the unvalidated path `create_event` succeeds and inserts the event
with its association, while the validated path `add_new_event` rejects the
same input, returning `None` with the state untouched. -/
theorem c9_creation_paths_disagree (db : DB) (title : String)
    (start end_ : Int) (owner_id : Nat) (content location : Option String)
    (hbad : ¬ start < end_) :
    (∃ e db2,
      create_event db title start end_ owner_id content location = (e, db2)
      ∧ db2.events = db.events ++ [e]
      ∧ db2.userEvents = db.userEvents ++ [⟨owner_id, e.id⟩]
      ∧ e.title = title ∧ e.start = start ∧ e.end_ = end_
      ∧ e.owner_id = owner_id)
    ∧ add_new_event ⟨title, start, end_, content, location, owner_id⟩ db
      = (none, db) := by
  constructor
  · exact ⟨_, _, rfl, rfl, rfl, rfl, rfl, rfl, rfl⟩
  · have hcv : check_date_validation (PyVal.vDT start) (PyVal.vDT end_)
        = false := by
      simp [check_date_validation, pyLt, hbad]
    simp [add_new_event, hcv]

/-- Witness for C9: the claim's example, start 600 and end 540 minutes
into 2024-01-01 (10:00 versus 09:00), from the empty state. -/
theorem c9_witness :
    (∃ e db2,
      create_event dbEmpty "meeting" 600 540 7 none none = (e, db2)
      ∧ db2.events = dbEmpty.events ++ [e]
      ∧ db2.userEvents = dbEmpty.userEvents ++ [⟨7, e.id⟩]
      ∧ e.title = "meeting" ∧ e.start = 600 ∧ e.end_ = 540
      ∧ e.owner_id = 7)
    ∧ add_new_event ⟨"meeting", 600, 540, none, none, 7⟩ dbEmpty
      = (none, dbEmpty) :=
  c9_creation_paths_disagree dbEmpty "meeting" 600 540 7 none none
    (by decide)

/-- Claim C10: `sort_by_date` returns a permutation of its input ordered
by non-decreasing start timestamp (the input list itself is left
untouched: the embedding of `sorted` over `events.copy()` is pure, as is
the source, which never sorts in place). -/
theorem c10_sort_by_date_perm_sorted (events : List Event) :
    (sort_by_date events).Perm events
    ∧ List.Sorted (fun a b : Event => a.start ≤ b.start)
        (sort_by_date events) := by
  constructor
  · exact List.perm_insertionSort _ _
  · haveI h1 : IsTotal Event (fun a b : Event => a.start ≤ b.start) :=
      ⟨fun a b => Int.le_total a.start b.start⟩
    haveI h2 : IsTrans Event (fun a b : Event => a.start ≤ b.start) :=
      ⟨fun _ _ _ hab hbc => le_trans hab hbc⟩
    exact List.sorted_insertionSort _ _

end Calendar
